import Mathlib

/-!
Shallow embedding of the JumpGame repository (Rust/Bevy arcade jump game),
covering the jump-resolution logic (`src/player.rs`), the platform geometry
predicates and next-platform generation (`src/platform.rs`), the straight-fall
arm of the fall animation (`src/player.rs`, `animate_fall`) and the
camera-follow smoothing (`src/camera.rs`).

The game's `f32` arithmetic is modelled exactly over `ℚ` wherever the claims
only need field arithmetic and comparisons; the camera component, whose claim
is about Euclidean distances, is modelled over `ℝ` with `Real.sqrt`.
-/

namespace JumpGame

/-- Three-component vector over ℚ, modelling Bevy's `Vec3` for the game
logic (player positions, platform positions, tilt directions). -/
structure Vec3 where
  x : ℚ
  y : ℚ
  z : ℚ
deriving DecidableEq

/-- The constant `INITIAL_PLAYER_POS = Vec3::new(0.0, 1.5, 0.0)` from
`src/player.rs`. -/
def INITIAL_PLAYER_POS : Vec3 := ⟨0, 1.5, 0⟩

/-- `Vec3::NEG_X`. -/
def negX : Vec3 := ⟨-1, 0, 0⟩

/-- `Vec3::X`. -/
def unitX : Vec3 := ⟨1, 0, 0⟩

/-- `Vec3::Z`. -/
def unitZ : Vec3 := ⟨0, 0, 1⟩

/-- `Vec3::NEG_Z`. -/
def negZ : Vec3 := ⟨0, 0, -1⟩

/-- The platform shape enum from `src/platform.rs`: a box platform or a
cylinder platform. -/
inductive PlatformShape where
  | Box : PlatformShape
  | Cylinder : PlatformShape
deriving DecidableEq

/-- `PlatformShape::is_landed_on_platform` from `src/platform.rs` lines 43-60:
for `Box`, both horizontal deltas strictly below `1.5 / 2.0`; for `Cylinder`,
both strictly below `0.75` (square approximation, as in the source). -/
def PlatformShape.is_landed_on_platform :
    PlatformShape → Vec3 → Vec3 → Bool
  | .Box, platform_pos, landing_pos =>
      |landing_pos.x - platform_pos.x| < 1.5 / 2
        && |landing_pos.z - platform_pos.z| < 1.5 / 2
  | .Cylinder, platform_pos, landing_pos =>
      |landing_pos.x - platform_pos.x| < 0.75
        && |landing_pos.z - platform_pos.z| < 0.75

/-- `PlatformShape::is_touched_player` from `src/platform.rs` lines 71-89:
the same axis-aligned test with the half-extent inflated by the player
radius. -/
def PlatformShape.is_touched_player
    (shape : PlatformShape) (platform_pos landing_pos : Vec3)
    (player_radius : ℚ) : Bool :=
  match shape with
  | .Box =>
      |landing_pos.x - platform_pos.x| < 1.5 / 2 + player_radius
        && |landing_pos.z - platform_pos.z| < 1.5 / 2 + player_radius
  | .Cylinder =>
      |landing_pos.x - platform_pos.x| < 0.75 + player_radius
        && |landing_pos.z - platform_pos.z| < 0.75 + player_radius

/-- The `JumpState` resource from `src/player.rs`. -/
structure JumpState where
  start_pos : Vec3
  end_pos : Vec3
  animation_duration : ℚ
  falled : Bool
  completed : Bool
deriving DecidableEq

/-- `JumpState::animate_jump`: records start, end and duration and marks the
jump animation as in progress. -/
def JumpState.animate_jump (js : JumpState) (s e : Vec3) (d : ℚ) : JumpState :=
  { js with start_pos := s, end_pos := e, animation_duration := d,
            completed := false }

/-- The `FallType` enum from `src/player.rs`: straight descent, or tilt about
a direction vector followed by descent. -/
inductive FallType where
  | Straight : FallType
  | Tilt : Vec3 → FallType
deriving DecidableEq

/-- The `FallState` resource from `src/player.rs`. -/
structure FallState where
  pos : Vec3
  fall_type : FallType
  tilt_completed : Bool
  completed : Bool
  played_sound : Bool
deriving DecidableEq

/-- `FallState::animate_straight_fall` (`src/player.rs` lines 113-119). -/
def FallState.animate_straight_fall (fs : FallState) (p : Vec3) : FallState :=
  { fs with pos := p, fall_type := .Straight, completed := false,
            played_sound := false }

/-- `FallState::animate_tilt_fall` (`src/player.rs` lines 126-133). -/
def FallState.animate_tilt_fall (fs : FallState) (p dir : Vec3) : FallState :=
  { fs with pos := p, fall_type := .Tilt dir, tilt_completed := false,
            completed := false, played_sound := false }

/-- The state touched by a release of the jump input: score, charge
accumulator (`Some` holds the elapsed charge duration observed at the release
instant), jump and fall state, the score-up queue, the player translation,
the platform carrying `CurrentPlatform` and the optional platform carrying
`NextPlatform` (each a position paired with its shape), and a flag recording
whether the `warn!` at `src/player.rs` line 220 fired. -/
structure GameModel where
  score : ℕ
  accumulator : Option ℚ
  jumpState : JumpState
  fallState : FallState
  scoreUpQueue : List Vec3
  playerPos : Vec3
  currentPlatform : Vec3 × PlatformShape
  nextPlatform : Option (Vec3 × PlatformShape)
  warned : Bool
deriving DecidableEq

/-- The landing-position computation of `player_jump` (`src/player.rs` lines
232-251): if `next.x - current.x < 0.1` the platforms are laid out along Z and
the jump displaces by `-3.0 * elapsed` in Z; otherwise along X, displacing by
`+3.0 * elapsed` in X; height is reset to `INITIAL_PLAYER_POS.y`. -/
def landingPos (currentPos nextPos playerPos : Vec3) (elapsed : ℚ) : Vec3 :=
  if nextPos.x - currentPos.x < 0.1 then
    ⟨playerPos.x, INITIAL_PLAYER_POS.y, playerPos.z - 3 * elapsed⟩
  else
    ⟨playerPos.x + 3 * elapsed, INITIAL_PLAYER_POS.y, playerPos.z⟩

/-- The body of `player_jump` after the next-platform guard (`src/player.rs`
lines 223-354): computes the landing position, starts the arc animation with
duration `max (elapsed / 2) 0.5`, classifies the outcome against the two
platforms, updates score / queue / platform tags on a landing on Next,
chooses the fall kind on failure (touch Current first, then Next, else
straight), and clears the accumulator. -/
def resolveRelease (g : GameModel) (elapsed : ℚ)
    (nextPos : Vec3) (nextShape : PlatformShape) : GameModel :=
  let curPos := g.currentPlatform.1
  let curShape := g.currentPlatform.2
  let player := g.playerPos
  let landing := landingPos curPos nextPos player elapsed
  let js := g.jumpState.animate_jump player landing (max (elapsed / 2) 0.5)
  if curShape.is_landed_on_platform curPos landing
      || nextShape.is_landed_on_platform nextPos landing then
    if nextShape.is_landed_on_platform nextPos landing then
      { g with
        jumpState := { js with falled := false },
        score := g.score + 1,
        scoreUpQueue :=
          g.scoreUpQueue ++ [⟨landing.x, landing.y + 0.5, landing.z⟩],
        currentPlatform := (nextPos, nextShape),
        nextPlatform := none,
        accumulator := none }
    else
      { g with jumpState := { js with falled := false }, accumulator := none }
  else
    let fs :=
      if curShape.is_touched_player curPos landing 0.2 then
        g.fallState.animate_tilt_fall landing
          (if landing.x = player.x then negX else negZ)
      else if nextShape.is_touched_player nextPos landing 0.2 then
        g.fallState.animate_tilt_fall landing
          (if landing.x = player.x then
             (if landing.z < nextPos.z then negX else unitX)
           else
             (if landing.x < nextPos.x then unitZ else negZ))
      else
        g.fallState.animate_straight_fall landing
    { g with jumpState := { js with falled := true }, fallState := fs,
             accumulator := none }

/-- The release path of `player_jump` (`src/player.rs` lines 213-355): a
release is processed only when the jump and fall are completed and a charge
is in progress; if no Next platform exists the system logs a warning and
returns without consuming the charge; otherwise the release is resolved. -/
def playerJumpRelease (g : GameModel) : GameModel :=
  match g.accumulator with
  | none => g
  | some elapsed =>
    if g.jumpState.completed && g.fallState.completed then
      match g.nextPlatform with
      | none => { g with warned := true }
      | some np => resolveRelease g elapsed np.1 np.2
    else g

/-- `generate_next_platform` from `src/platform.rs` lines 140-179, with the
random draws passed as inputs: when a Next platform already exists nothing is
spawned (`none`); otherwise the new platform position is the Current position
offset by `randDistance` along `+X` (coin true) or `-Z` (coin false), at
height `0.5`. -/
def generate_next_platform (hasNext : Bool) (currentPos : Vec3)
    (randDistance : ℚ) (coin : Bool) : Option Vec3 :=
  if hasNext then none
  else if coin then
    some ⟨currentPos.x + randDistance, 0.5, currentPos.z⟩
  else
    some ⟨currentPos.x, 0.5, currentPos.z - randDistance⟩

/-- The `FallType::Straight` arm of `animate_fall` (`src/player.rs` lines
468-496) including its gating and one-shot sound guard: given the fall state,
the jump-completed flag, the player height and the frame's elapsed seconds,
returns the new player height, the new fall state, and whether the session
was switched to `GameState::GameOver` this frame.  (The `Tilt` arm, which
rotates via quaternions, is not needed by the claims and is not modelled.) -/
def animateFallStraight (fs : FallState) (jumpCompleted : Bool)
    (playerY delta : ℚ) : ℚ × FallState × Bool :=
  if !fs.completed && jumpCompleted then
    let fs1 := if !fs.played_sound then { fs with played_sound := true } else fs
    if playerY < 0.5 then
      (playerY, { fs1 with completed := true }, true)
    else
      (playerY - 0.7 * delta, fs1, false)
  else
    (playerY, fs, false)

/-- The game state `g` with the Current platform's shape replaced by `s` and
the Next platform's shape (when present) replaced by `t`; used to express
that the release outcome does not depend on the platform shapes. -/
def setShapes (g : GameModel) (s t : PlatformShape) : GameModel :=
  { g with
    currentPlatform := (g.currentPlatform.1, s),
    nextPlatform := g.nextPlatform.map (fun np => (np.1, t)) }

/-- A concrete release state: player at the initial position, Current Box
platform at the origin column, Next Box platform at `(3, 0.5, 0)` (X-axis
layout), charge elapsed `0.3` seconds. -/
def tiltCexInput : GameModel :=
  { score := 0
    accumulator := some 0.3
    jumpState :=
      { start_pos := ⟨0, 0, 0⟩, end_pos := ⟨0, 0, 0⟩,
        animation_duration := 0, falled := false, completed := true }
    fallState :=
      { pos := ⟨0, 0, 0⟩, fall_type := .Straight,
        tilt_completed := true, completed := true, played_sound := true }
    scoreUpQueue := []
    playerPos := ⟨0, 1.5, 0⟩
    currentPlatform := (⟨0, 0.5, 0⟩, .Box)
    nextPlatform := some (⟨3, 0.5, 0⟩, .Box)
    warned := false }

/-- A concrete release state for a successful landing: player at the initial
position, Current Box platform below it, Next Box platform at `(3, 0.5, 0)`
(X-axis layout), charge elapsed `1` second, so the landing is the Next
platform's centre column. -/
def successInput : GameModel :=
  { score := 0
    accumulator := some 1
    jumpState :=
      { start_pos := ⟨0, 0, 0⟩, end_pos := ⟨0, 0, 0⟩,
        animation_duration := 0, falled := false, completed := true }
    fallState :=
      { pos := ⟨0, 0, 0⟩, fall_type := .Straight,
        tilt_completed := true, completed := true, played_sound := true }
    scoreUpQueue := []
    playerPos := ⟨0, 1.5, 0⟩
    currentPlatform := (⟨0, 0.5, 0⟩, .Box)
    nextPlatform := some (⟨3, 0.5, 0⟩, .Box)
    warned := false }

/-- A concrete release state that is charging but has no Next platform. -/
def noNextInput : GameModel :=
  { score := 7
    accumulator := some 0.4
    jumpState :=
      { start_pos := ⟨0, 0, 0⟩, end_pos := ⟨0, 0, 0⟩,
        animation_duration := 0, falled := false, completed := true }
    fallState :=
      { pos := ⟨0, 0, 0⟩, fall_type := .Straight,
        tilt_completed := true, completed := true, played_sound := true }
    scoreUpQueue := []
    playerPos := ⟨0, 1.5, 0⟩
    currentPlatform := (⟨0, 0.5, 0⟩, .Box)
    nextPlatform := none
    warned := false }

/-- Three-component vector over ℝ, modelling Bevy's `Vec3` for the camera
logic, whose specification speaks about Euclidean distances. -/
structure Vec3R where
  x : ℝ
  y : ℝ
  z : ℝ

/-- `Vec3::ZERO`. -/
def Vec3R.zero : Vec3R := ⟨0, 0, 0⟩

/-- Componentwise vector addition. -/
def Vec3R.add (a b : Vec3R) : Vec3R := ⟨a.x + b.x, a.y + b.y, a.z + b.z⟩

/-- Componentwise vector subtraction. -/
def Vec3R.sub (a b : Vec3R) : Vec3R := ⟨a.x - b.x, a.y - b.y, a.z - b.z⟩

/-- Scalar multiplication. -/
def Vec3R.smul (c : ℝ) (v : Vec3R) : Vec3R := ⟨c * v.x, c * v.y, c * v.z⟩

/-- `Vec3::distance`: the Euclidean distance between two points. -/
noncomputable def Vec3R.dist (a b : Vec3R) : ℝ :=
  Real.sqrt ((a.x - b.x) ^ 2 + (a.y - b.y) ^ 2 + (a.z - b.z) ^ 2)

open scoped Classical in
/-- One frame of the camera update of `move_camera` (`src/camera.rs` lines
114-118) after the step has been computed: if the camera is farther from the
destination than the step's own length (`Vec3::ZERO.distance(step)`), add the
step; otherwise hold position. -/
noncomputable def cameraStep (step target cam : Vec3R) : Vec3R :=
  if Vec3R.dist cam target > Vec3R.dist Vec3R.zero step then Vec3R.add cam step
  else cam

/-- Iterated application of `cameraStep` with a fixed step and target. -/
noncomputable def camIter (step target cam : Vec3R) : ℕ → Vec3R
  | 0 => cam
  | n + 1 => cameraStep step target (camIter step target cam n)

/-- The step recomputation of `move_camera` (`src/camera.rs` line 109): 5% of
the remaining delta from the camera to its destination. -/
def camStepOf (target cam : Vec3R) : Vec3R :=
  Vec3R.smul 0.05 (Vec3R.sub target cam)

/-- The camera trajectory after a step recompute at `cam0` with the target
held fixed: frame `n` of repeatedly applying the recomputed step. -/
noncomputable def camSeq (target cam0 : Vec3R) (n : ℕ) : Vec3R :=
  camIter (camStepOf target cam0) target cam0 n

end JumpGame

/-!
Helper lemmas shared by the claim theorems below.
-/

namespace JumpGame

/-- Landing tests do not depend on the platform shape: the Box test uses the
half-extent `1.5 / 2` and the Cylinder test uses `0.75`, which coincide. -/
theorem is_landed_shape_eq (a b : PlatformShape) (p l : Vec3) :
    a.is_landed_on_platform p l = b.is_landed_on_platform p l := by
  cases a <;> cases b <;>
    simp only [PlatformShape.is_landed_on_platform] <;>
    rw [show (1.5 / 2 : ℚ) = 0.75 by norm_num]

/-- Touch tests do not depend on the platform shape, for every probe
radius. -/
theorem is_touched_shape_eq (a b : PlatformShape) (p l : Vec3) (r : ℚ) :
    a.is_touched_player p l r = b.is_touched_player p l r := by
  cases a <;> cases b <;>
    simp only [PlatformShape.is_touched_player] <;>
    rw [show (1.5 / 2 : ℚ) = 0.75 by norm_num]

/-- Distance from an affine point on the segment towards the target: moving
the fraction `a` of the way from `c0` to `t` leaves distance
`|1 - a| * dist c0 t`. -/
theorem dist_add_smul (t c0 : Vec3R) (a : ℝ) :
    Vec3R.dist (Vec3R.add c0 (Vec3R.smul a (Vec3R.sub t c0))) t
      = |1 - a| * Vec3R.dist c0 t := by
  unfold Vec3R.dist Vec3R.add Vec3R.smul Vec3R.sub
  dsimp only
  rw [show (c0.x + a * (t.x - c0.x) - t.x) ^ 2 + (c0.y + a * (t.y - c0.y) - t.y) ^ 2
        + (c0.z + a * (t.z - c0.z) - t.z) ^ 2
      = (1 - a) ^ 2 * ((c0.x - t.x) ^ 2 + (c0.y - t.y) ^ 2 + (c0.z - t.z) ^ 2) by
        ring]
  rw [Real.sqrt_mul (sq_nonneg _), Real.sqrt_sq_eq_abs]

/-- The length of the recomputed camera step is 5% of the camera's distance
to its destination. -/
theorem step_norm (t c0 : Vec3R) :
    Vec3R.dist Vec3R.zero (camStepOf t c0) = 0.05 * Vec3R.dist c0 t := by
  unfold Vec3R.dist Vec3R.zero camStepOf Vec3R.smul Vec3R.sub
  dsimp only
  rw [show (0 - 0.05 * (t.x - c0.x)) ^ 2 + (0 - 0.05 * (t.y - c0.y)) ^ 2
        + (0 - 0.05 * (t.z - c0.z)) ^ 2
      = 0.05 ^ 2 * ((c0.x - t.x) ^ 2 + (c0.y - t.y) ^ 2 + (c0.z - t.z) ^ 2) by
        ring]
  rw [Real.sqrt_mul (sq_nonneg _), Real.sqrt_sq (by norm_num : (0:ℝ) ≤ 0.05)]

/-- When the camera-move guard passes at frame coefficient `k ≤ 19`, the
remaining distance is positive and `k` is at most 18. -/
theorem guard_bound (t c0 : Vec3R) (k : ℕ) (hk : k ≤ 19)
    (h : 0.05 * Vec3R.dist c0 t < |1 - 0.05 * (k : ℝ)| * Vec3R.dist c0 t) :
    0 < Vec3R.dist c0 t ∧ k ≤ 18 := by
  have hD : 0 ≤ Vec3R.dist c0 t := Real.sqrt_nonneg _
  have hDpos : 0 < Vec3R.dist c0 t := by
    rcases hD.eq_or_lt with h0 | h0
    · rw [← h0] at h; simp at h
    · exact h0
  have habs : 0.05 < |1 - 0.05 * (k : ℝ)| := (mul_lt_mul_right hDpos).mp h
  refine ⟨hDpos, ?_⟩
  by_contra hgt
  have hk19 : k = 19 := by omega
  subst hk19
  rw [show (1:ℝ) - 0.05 * ((19:ℕ) : ℝ) = 0.05 by push_cast; ring] at habs
  rw [abs_of_nonneg (by norm_num : (0:ℝ) ≤ 0.05)] at habs
  exact lt_irrefl _ habs

/-- After a step recompute at `cam0`, the camera trajectory stays on the
segment towards the target: at every frame it is `cam0` plus at most 19
steps of 5% of the original delta. -/
theorem camSeq_invariant (t c0 : Vec3R) (n : ℕ) :
    ∃ k : ℕ, k ≤ 19 ∧
      camSeq t c0 n
        = Vec3R.add c0 (Vec3R.smul (0.05 * (k : ℝ)) (Vec3R.sub t c0)) := by
  induction n with
  | zero =>
    refine ⟨0, by norm_num, ?_⟩
    simp [camSeq, camIter, Vec3R.add, Vec3R.smul, Vec3R.sub]
  | succ n ih =>
    obtain ⟨k, hk, heq⟩ := ih
    by_cases hg : Vec3R.dist (camSeq t c0 n) t
        > Vec3R.dist Vec3R.zero (camStepOf t c0)
    · have hg' := hg
      rw [heq, dist_add_smul, step_norm] at hg'
      obtain ⟨hDpos, hk18⟩ := guard_bound t c0 k hk hg'
      refine ⟨k + 1, by omega, ?_⟩
      have hstep : camSeq t c0 (n + 1)
          = cameraStep (camStepOf t c0) t (camSeq t c0 n) := rfl
      rw [hstep]
      unfold cameraStep
      rw [if_pos hg, heq]
      simp only [camStepOf, Vec3R.add, Vec3R.smul, Vec3R.sub, Vec3R.mk.injEq]
      push_cast
      refine ⟨by ring, by ring, by ring⟩
    · refine ⟨k, hk, ?_⟩
      have hstep : camSeq t c0 (n + 1)
          = cameraStep (camStepOf t c0) t (camSeq t c0 n) := rfl
      rw [hstep]
      unfold cameraStep
      rw [if_neg hg, heq]

/-- Distance evaluation at the concrete camera start used by the camera
witness. -/
theorem dist_neg20 : Vec3R.dist ⟨-20, 0, 0⟩ ⟨0, 0, 0⟩ = 20 := by
  show Real.sqrt ((-20 - 0) ^ 2 + (0 - 0) ^ 2 + (0 - 0) ^ 2) = 20
  rw [show ((-20 : ℝ) - 0) ^ 2 + ((0 : ℝ) - 0) ^ 2 + ((0 : ℝ) - 0) ^ 2 = 20 ^ 2 by
        norm_num,
      Real.sqrt_sq (by norm_num : (0:ℝ) ≤ 20)]

/-- Distance evaluation at the concrete near-target camera position used by
the camera witness. -/
theorem dist_half : Vec3R.dist ⟨0.5, 0, 0⟩ ⟨0, 0, 0⟩ = 0.5 := by
  show Real.sqrt ((0.5 - 0) ^ 2 + (0 - 0) ^ 2 + (0 - 0) ^ 2) = 0.5
  rw [show ((0.5 : ℝ) - 0) ^ 2 + ((0 : ℝ) - 0) ^ 2 + ((0 : ℝ) - 0) ^ 2 = 0.5 ^ 2 by
        norm_num,
      Real.sqrt_sq (by norm_num : (0:ℝ) ≤ 0.5)]

end JumpGame

/-!
Claim theorems.
-/

namespace JumpGame

/-- Claim C1, counterexample: at a concrete X-layout release (Current Box at
the origin column, Next Box at `(3, 0.5, 0)`, charge `0.3 s`), the jump is a
failure whose landing edge-touches the Current platform and whose horizontal
displacement is along X (the landing X differs from the player X), yet the
tilt direction passed to the tilt-fall is `-Z`, not `-X` as the claim
states. -/
theorem tilt_direction_cex :
    (landingPos ⟨0, 0.5, 0⟩ ⟨3, 0.5, 0⟩ ⟨0, 1.5, 0⟩ 0.3).x ≠ (0 : ℚ) ∧
    (playerJumpRelease tiltCexInput).jumpState.falled = true ∧
    tiltCexInput.currentPlatform.2.is_touched_player tiltCexInput.currentPlatform.1
      (landingPos ⟨0, 0.5, 0⟩ ⟨3, 0.5, 0⟩ ⟨0, 1.5, 0⟩ 0.3) 0.2 = true ∧
    (playerJumpRelease tiltCexInput).fallState.fall_type = FallType.Tilt negZ ∧
    FallType.Tilt negZ ≠ FallType.Tilt negX := by
  refine ⟨?_, ?_, ?_, ?_, ?_⟩ <;>
    norm_num [playerJumpRelease, resolveRelease, landingPos, tiltCexInput,
      PlatformShape.is_landed_on_platform, PlatformShape.is_touched_player,
      FallState.animate_tilt_fall, FallState.animate_straight_fall,
      JumpState.animate_jump, INITIAL_PLAYER_POS, abs_lt, negZ, negX, Vec3.mk.injEq]

/-- Claim C1, amended: when a release is classified as a failure and the
landing edge-touches the Current platform, the tilt direction is `-X` when
the landing X equals the player's X (displacement along Z, or no
displacement), and `-Z` otherwise (displacement along X). -/
theorem tilt_direction_current (g : GameModel) (d : ℚ) (np : Vec3)
    (ns : PlatformShape) (L : Vec3)
    (hacc : g.accumulator = some d)
    (hjc : g.jumpState.completed = true)
    (hfc : g.fallState.completed = true)
    (hnext : g.nextPlatform = some (np, ns))
    (hL : L = landingPos g.currentPlatform.1 np g.playerPos d)
    (hfailC : g.currentPlatform.2.is_landed_on_platform g.currentPlatform.1 L
        = false)
    (hfailN : ns.is_landed_on_platform np L = false)
    (htouch : g.currentPlatform.2.is_touched_player g.currentPlatform.1 L 0.2
        = true) :
    (playerJumpRelease g).fallState.fall_type =
      FallType.Tilt (if L.x = g.playerPos.x then negX else negZ) := by
  subst hL
  simp [playerJumpRelease, resolveRelease, hacc, hjc, hfc, hnext, hfailC, hfailN,
    htouch, FallState.animate_tilt_fall]

/-- Claim C1, witness for the amended theorem at the concrete failure
edge-touching the Current platform. -/
theorem tilt_direction_current_witness :
    (playerJumpRelease tiltCexInput).fallState.fall_type =
      FallType.Tilt (if (0.9 : ℚ) = 0 then negX else negZ) :=
  tilt_direction_current tiltCexInput 0.3 ⟨3, 0.5, 0⟩ PlatformShape.Box
    ⟨0.9, 1.5, 0⟩ rfl rfl rfl rfl
    (by norm_num [landingPos, tiltCexInput, INITIAL_PLAYER_POS])
    (by norm_num [tiltCexInput, PlatformShape.is_landed_on_platform, abs_lt])
    (by norm_num [PlatformShape.is_landed_on_platform, abs_lt])
    (by norm_num [tiltCexInput, PlatformShape.is_touched_player, abs_lt])

/-- Claim C2: for every charge duration `d ≥ 0` processed at release, the
landing position sets the height to the rest height `1.5` and displaces the
player's horizontal position by exactly `3 * d` along the inferred layout
axis — in the fixed direction `-Z` for a Z layout and `+X` for an X layout —
leaving the other horizontal coordinate unchanged. -/
theorem landing_displacement (currentPos nextPos playerPos : Vec3) (d : ℚ)
    (hd : 0 ≤ d) :
    (landingPos currentPos nextPos playerPos d).y = 1.5 ∧
    (nextPos.x - currentPos.x < 0.1 →
      (landingPos currentPos nextPos playerPos d).x = playerPos.x ∧
      (landingPos currentPos nextPos playerPos d).z = playerPos.z - 3 * d ∧
      |(landingPos currentPos nextPos playerPos d).z - playerPos.z| = 3 * d) ∧
    (¬ nextPos.x - currentPos.x < 0.1 →
      (landingPos currentPos nextPos playerPos d).z = playerPos.z ∧
      (landingPos currentPos nextPos playerPos d).x = playerPos.x + 3 * d ∧
      |(landingPos currentPos nextPos playerPos d).x - playerPos.x| = 3 * d) := by
  by_cases h : nextPos.x - currentPos.x < 0.1 <;>
    simp [landingPos, h, INITIAL_PLAYER_POS] <;> linarith

/-- Claim C2, witness at charge duration `2` in an X layout. -/
theorem landing_displacement_witness :
    (0 : ℚ) ≤ 2 ∧
    (landingPos ⟨0, 0.5, 0⟩ ⟨3, 0.5, 0⟩ ⟨0, 1.5, 0⟩ 2).x = 0 + 3 * 2 :=
  ⟨by norm_num,
   ((landing_displacement ⟨0, 0.5, 0⟩ ⟨3, 0.5, 0⟩ ⟨0, 1.5, 0⟩ 2 (by norm_num)).2.2
      (by norm_num)).2.1⟩

/-- Claim C3: a release is classified as success (`falled = false`) exactly
when the landing position satisfies `is_landed_on_platform` for the Current
or the Next platform; the score increases by one and the Next platform is
promoted to Current (with the Next slot emptied) precisely when the landing
was on the Next platform, and a success landing back on Current leaves the
score and the platform tags unchanged. -/
theorem success_classification (g : GameModel) (d : ℚ) (np : Vec3)
    (ns : PlatformShape) (L : Vec3)
    (hacc : g.accumulator = some d)
    (hjc : g.jumpState.completed = true)
    (hfc : g.fallState.completed = true)
    (hnext : g.nextPlatform = some (np, ns))
    (hL : L = landingPos g.currentPlatform.1 np g.playerPos d) :
    ((playerJumpRelease g).jumpState.falled = false ↔
      (g.currentPlatform.2.is_landed_on_platform g.currentPlatform.1 L = true ∨
       ns.is_landed_on_platform np L = true)) ∧
    (playerJumpRelease g).score =
      g.score + (if ns.is_landed_on_platform np L = true then 1 else 0) ∧
    ((playerJumpRelease g).currentPlatform, (playerJumpRelease g).nextPlatform) =
      (if ns.is_landed_on_platform np L = true then ((np, ns), none)
       else (g.currentPlatform, g.nextPlatform)) := by
  subst hL
  cases hc : g.currentPlatform.2.is_landed_on_platform g.currentPlatform.1
      (landingPos g.currentPlatform.1 np g.playerPos d) <;>
    cases hn : ns.is_landed_on_platform np
        (landingPos g.currentPlatform.1 np g.playerPos d) <;>
      simp [playerJumpRelease, resolveRelease, hacc, hjc, hfc, hnext, hc, hn]

/-- Claim C3, witness at a concrete landing on the Next platform's centre. -/
theorem success_classification_witness :
    (playerJumpRelease successInput).score =
      successInput.score +
        (if PlatformShape.Box.is_landed_on_platform ⟨3, 0.5, 0⟩ ⟨3, 1.5, 0⟩ = true
         then 1 else 0) :=
  (success_classification successInput 1 ⟨3, 0.5, 0⟩ PlatformShape.Box ⟨3, 1.5, 0⟩
    rfl rfl rfl rfl
    (by norm_num [landingPos, successInput, INITIAL_PLAYER_POS])).2.1

/-- Claim C4: for every pair of Current and Next positions and every positive
charge duration, the release displaces the player along `-Z` (X and height
held) exactly when `next.x - current.x < 0.1`, and along `+X` (Z and height
held) exactly otherwise. -/
theorem layout_axis_inference (currentPos nextPos playerPos : Vec3) (d : ℚ)
    (hd : 0 < d) :
    (((landingPos currentPos nextPos playerPos d).x = playerPos.x ∧
      (landingPos currentPos nextPos playerPos d).z = playerPos.z - 3 * d) ↔
        nextPos.x - currentPos.x < 0.1) ∧
    (((landingPos currentPos nextPos playerPos d).x = playerPos.x + 3 * d ∧
      (landingPos currentPos nextPos playerPos d).z = playerPos.z) ↔
        ¬ nextPos.x - currentPos.x < 0.1) := by
  by_cases h : nextPos.x - currentPos.x < 0.1 <;>
    simp [landingPos, h, INITIAL_PLAYER_POS] <;> intro h2 <;> linarith

/-- Claim C4, witness in a Z layout (zero X-difference) at charge `1`. -/
theorem layout_axis_inference_witness :
    (0 : ℚ) < 1 ∧
    (((landingPos ⟨0, 0.5, 0⟩ ⟨0, 0.5, 3⟩ ⟨0, 1.5, 0⟩ 1).x = 0 ∧
      (landingPos ⟨0, 0.5, 0⟩ ⟨0, 0.5, 3⟩ ⟨0, 1.5, 0⟩ 1).z = 0 - 3 * 1) ↔
        (0 : ℚ) - 0 < 0.1) :=
  ⟨by norm_num,
   (layout_axis_inference ⟨0, 0.5, 0⟩ ⟨0, 0.5, 3⟩ ⟨0, 1.5, 0⟩ 1 (by norm_num)).1⟩

/-- Claim C5: for every platform shape and pair of positions, the touch test
with probe radius `0` coincides with the landing test, and for every positive
probe radius a landed position is also touched. -/
theorem touched_vs_landed (shape : PlatformShape) (p l : Vec3) :
    (shape.is_touched_player p l 0 = shape.is_landed_on_platform p l) ∧
    (∀ r : ℚ, 0 < r → shape.is_landed_on_platform p l = true →
      shape.is_touched_player p l r = true) := by
  cases shape <;>
    constructor <;>
    simp [PlatformShape.is_landed_on_platform, PlatformShape.is_touched_player] <;>
    intro r hr h1 h2 <;> constructor <;> linarith

/-- Claim C5, witness: a landing inside a Box platform is touched at probe
radius `1`. -/
theorem touched_vs_landed_witness :
    (0 : ℚ) < 1 ∧
    PlatformShape.Box.is_landed_on_platform ⟨0, 0.5, 0⟩ ⟨0.1, 1.5, 0.2⟩ = true ∧
    PlatformShape.Box.is_touched_player ⟨0, 0.5, 0⟩ ⟨0.1, 1.5, 0.2⟩ 1 = true :=
  ⟨by norm_num, by
    norm_num [PlatformShape.is_landed_on_platform, abs_lt], by
    exact (touched_vs_landed PlatformShape.Box ⟨0, 0.5, 0⟩ ⟨0.1, 1.5, 0.2⟩).2 1
      (by norm_num)
      (by norm_num [PlatformShape.is_landed_on_platform, abs_lt])⟩

/-- Claim C6: releasing the jump input while charging with no Next platform
leaves the charge accumulator set to the same value and the jump state, fall
state, score and platform slots unchanged, records only the warning, so a
later release can still resolve the same charge. -/
theorem release_without_next (g : GameModel) (d : ℚ)
    (hacc : g.accumulator = some d)
    (hjc : g.jumpState.completed = true)
    (hfc : g.fallState.completed = true)
    (hnone : g.nextPlatform = none) :
    (playerJumpRelease g).accumulator = some d ∧
    (playerJumpRelease g).jumpState = g.jumpState ∧
    (playerJumpRelease g).fallState = g.fallState ∧
    (playerJumpRelease g).score = g.score ∧
    (playerJumpRelease g).currentPlatform = g.currentPlatform ∧
    (playerJumpRelease g).nextPlatform = g.nextPlatform ∧
    (playerJumpRelease g).warned = true := by
  simp [playerJumpRelease, hacc, hjc, hfc, hnone]

/-- Claim C6, witness at a concrete charging state with no Next platform. -/
theorem release_without_next_witness :
    (playerJumpRelease noNextInput).accumulator = some 0.4 ∧
    (playerJumpRelease noNextInput).jumpState = noNextInput.jumpState ∧
    (playerJumpRelease noNextInput).fallState = noNextInput.fallState ∧
    (playerJumpRelease noNextInput).score = noNextInput.score ∧
    (playerJumpRelease noNextInput).currentPlatform
      = noNextInput.currentPlatform ∧
    (playerJumpRelease noNextInput).nextPlatform = noNextInput.nextPlatform ∧
    (playerJumpRelease noNextInput).warned = true :=
  release_without_next noNextInput 0.4 rfl rfl rfl rfl

/-- Claim C7: with the camera target fixed after a step recompute, every
frame whose guard passes (camera strictly farther from the target than the
step's own length) strictly decreases the camera's distance to the target;
and from any camera position strictly closer to the target than the step's
length, applying the update any number of times leaves the camera unmoved, so
the distance never grows again. -/
theorem move_camera_convergence (target cam0 : Vec3R) :
    (∀ n : ℕ,
      Vec3R.dist (camSeq target cam0 n) target
          > Vec3R.dist Vec3R.zero (camStepOf target cam0) →
        Vec3R.dist (camSeq target cam0 (n + 1)) target
          < Vec3R.dist (camSeq target cam0 n) target) ∧
    (∀ step cam : Vec3R,
      Vec3R.dist cam target < Vec3R.dist Vec3R.zero step →
        ∀ m : ℕ, camIter step target cam m = cam) := by
  constructor
  · intro n hgt
    obtain ⟨k, hk, heq⟩ := camSeq_invariant target cam0 n
    have hgt' := hgt
    rw [heq, dist_add_smul, step_norm] at hgt'
    obtain ⟨hDpos, hk18⟩ := guard_bound target cam0 k hk hgt'
    have hco : Vec3R.add (Vec3R.add cam0
          (Vec3R.smul (0.05 * (k : ℝ)) (Vec3R.sub target cam0)))
          (camStepOf target cam0)
        = Vec3R.add cam0
            (Vec3R.smul (0.05 * ((k : ℝ) + 1)) (Vec3R.sub target cam0)) := by
      simp only [camStepOf, Vec3R.add, Vec3R.smul, Vec3R.sub, Vec3R.mk.injEq]
      refine ⟨by ring, by ring, by ring⟩
    rw [show camSeq target cam0 (n + 1)
          = cameraStep (camStepOf target cam0) target (camSeq target cam0 n)
          from rfl]
    unfold cameraStep
    rw [if_pos hgt, heq, hco, dist_add_smul, dist_add_smul]
    have hkr : (k : ℝ) ≤ 18 := by exact_mod_cast hk18
    rw [abs_of_nonneg (by linarith : (0:ℝ) ≤ 1 - 0.05 * ((k : ℝ) + 1)),
        abs_of_nonneg (by linarith : (0:ℝ) ≤ 1 - 0.05 * (k : ℝ))]
    have hcoef : 1 - 0.05 * ((k : ℝ) + 1) < 1 - 0.05 * (k : ℝ) := by linarith
    exact mul_lt_mul_of_pos_right hcoef hDpos
  · intro step cam hless m
    induction m with
    | zero => rfl
    | succ m ih =>
      show cameraStep step target (camIter step target cam m) = cam
      rw [ih]
      unfold cameraStep
      rw [if_neg (not_lt.mpr hless.le)]

/-- Claim C7, witness: a camera twenty units from the target strictly
approaches it on the first frame, and a camera within half a step-length
stays put for three frames. -/
theorem move_camera_convergence_witness :
    Vec3R.dist (camSeq ⟨0, 0, 0⟩ ⟨-20, 0, 0⟩ 1) ⟨0, 0, 0⟩
      < Vec3R.dist (camSeq ⟨0, 0, 0⟩ ⟨-20, 0, 0⟩ 0) ⟨0, 0, 0⟩ ∧
    camIter (camStepOf ⟨0, 0, 0⟩ ⟨-20, 0, 0⟩) ⟨0, 0, 0⟩ ⟨0.5, 0, 0⟩ 3
      = ⟨0.5, 0, 0⟩ := by
  constructor
  · refine (move_camera_convergence ⟨0, 0, 0⟩ ⟨-20, 0, 0⟩).1 0 ?_
    rw [show camSeq ⟨0, 0, 0⟩ ⟨-20, 0, 0⟩ 0 = (⟨-20, 0, 0⟩ : Vec3R) from rfl,
        step_norm, dist_neg20]
    norm_num
  · refine (move_camera_convergence ⟨0, 0, 0⟩ ⟨-20, 0, 0⟩).2
      (camStepOf ⟨0, 0, 0⟩ ⟨-20, 0, 0⟩) ⟨0.5, 0, 0⟩ ?_ 3
    rw [step_norm, dist_neg20, dist_half]
    norm_num

/-- Claim C8: running the next-platform generation when a Next platform
already exists creates nothing, and when none exists the generated platform
is offset from the Current position along exactly one horizontal axis —
`+X` or `-Z`, never both — by the drawn distance, which lies in `[2.5, 4)`. -/
theorem next_platform_generation (cur : Vec3) (rd : ℚ)
    (h1 : 2.5 ≤ rd) (h2 : rd < 4) :
    (∀ coin, generate_next_platform true cur rd coin = none) ∧
    (∀ coin p, generate_next_platform false cur rd coin = some p →
      p.y = 0.5 ∧
      ((p.z = cur.z ∧ p.x ≠ cur.x ∧ 2.5 ≤ |p.x - cur.x| ∧ |p.x - cur.x| < 4) ∨
       (p.x = cur.x ∧ p.z ≠ cur.z ∧ 2.5 ≤ |p.z - cur.z| ∧ |p.z - cur.z| < 4))) := by
  constructor
  · intro coin; simp [generate_next_platform]
  · intro coin p hp
    cases coin with
    | false =>
      rw [show generate_next_platform false cur rd false
            = some ⟨cur.x, 0.5, cur.z - rd⟩ from rfl, Option.some.injEq] at hp
      subst hp
      refine ⟨rfl, Or.inr ⟨rfl, by intro h; nlinarith [congrArg id h], ?_, ?_⟩⟩ <;>
        · simp only
          rw [show cur.z - rd - cur.z = -rd by ring, abs_neg,
            abs_of_nonneg (by linarith)]
          linarith
    | true =>
      rw [show generate_next_platform false cur rd true
            = some ⟨cur.x + rd, 0.5, cur.z⟩ from rfl, Option.some.injEq] at hp
      subst hp
      refine ⟨rfl, Or.inl ⟨rfl, by intro h; nlinarith [congrArg id h], ?_, ?_⟩⟩ <;>
        · simp only
          rw [show cur.x + rd - cur.x = rd by ring, abs_of_nonneg (by linarith)]
          linarith

/-- Claim C8, witness at drawn distance `3`: generation with an existing Next
spawns nothing, and the fresh platform keeps the spawn height. -/
theorem next_platform_generation_witness :
    (2.5 : ℚ) ≤ 3 ∧ (3 : ℚ) < 4 ∧
    generate_next_platform true ⟨0, 0.5, 0⟩ 3 true = none ∧
    (⟨3, 0.5, 0⟩ : Vec3).y = 0.5 :=
  ⟨by norm_num, by norm_num,
   (next_platform_generation ⟨0, 0.5, 0⟩ 3 (by norm_num) (by norm_num)).1 true,
   ((next_platform_generation ⟨0, 0.5, 0⟩ 3 (by norm_num) (by norm_num)).2 true
      ⟨3, 0.5, 0⟩ (by norm_num [generate_next_platform, Vec3.mk.injEq])).1⟩

/-- Claim C9: during an active Straight fall (fall not completed, jump
completed), a frame with the player height at least `0.5` lowers the height
by `0.7` times the frame's elapsed seconds and leaves the fall uncompleted
with no game-over signal, while the first frame observing a height below
`0.5` keeps the height, marks the fall completed and signals game over. -/
theorem straight_fall_step (fs : FallState) (y delta : ℚ)
    (hactive : fs.completed = false) :
    (0.5 ≤ y →
      (animateFallStraight fs true y delta).1 = y - 0.7 * delta ∧
      (animateFallStraight fs true y delta).2.1.completed = false ∧
      (animateFallStraight fs true y delta).2.2 = false) ∧
    (y < 0.5 →
      (animateFallStraight fs true y delta).1 = y ∧
      (animateFallStraight fs true y delta).2.1.completed = true ∧
      (animateFallStraight fs true y delta).2.2 = true) := by
  constructor
  · intro h
    have hy : ¬ y < 0.5 := not_lt.mpr h
    cases hps : fs.played_sound <;>
      simp [animateFallStraight, hactive, hy, hps]
  · intro h
    cases hps : fs.played_sound <;>
      simp [animateFallStraight, hactive, h, hps]

/-- Claim C9, witness: one frame of one second from height `1.5` descends to
`0.8`. -/
theorem straight_fall_step_witness :
    (0.5 : ℚ) ≤ 1.5 ∧
    (animateFallStraight ⟨⟨0, 1.5, 0⟩, .Straight, true, false, false⟩ true 1.5 1).1
      = 1.5 - 0.7 * 1 :=
  ⟨by norm_num,
   ((straight_fall_step ⟨⟨0, 1.5, 0⟩, .Straight, true, false, false⟩ 1.5 1 rfl).1
      (by norm_num)).1⟩

/-- Claim C10: the Box and Cylinder variants give identical results for both
geometry predicates (both reduce to the same `0.75` half-extent axis-aligned
test), and consequently the score, jump state and fall state produced by a
release never depend on the shape of either platform. -/
theorem shape_irrelevance :
    (∀ p l, PlatformShape.Box.is_landed_on_platform p l
        = PlatformShape.Cylinder.is_landed_on_platform p l) ∧
    (∀ p l r, PlatformShape.Box.is_touched_player p l r
        = PlatformShape.Cylinder.is_touched_player p l r) ∧
    (∀ (g : GameModel) (s t s' t' : PlatformShape),
      (playerJumpRelease (setShapes g s t)).score
          = (playerJumpRelease (setShapes g s' t')).score ∧
      (playerJumpRelease (setShapes g s t)).jumpState
          = (playerJumpRelease (setShapes g s' t')).jumpState ∧
      (playerJumpRelease (setShapes g s t)).fallState
          = (playerJumpRelease (setShapes g s' t')).fallState) := by
  refine ⟨fun p l => is_landed_shape_eq _ _ p l,
          fun p l r => is_touched_shape_eq _ _ p l r,
          fun g s t s' t' => ?_⟩
  cases hacc : g.accumulator with
  | none => simp [playerJumpRelease, setShapes, hacc]
  | some d =>
    cases hnp : g.nextPlatform with
    | none =>
      simp only [playerJumpRelease, setShapes, hacc, hnp, Option.map]
      split_ifs <;> simp
    | some np =>
      obtain ⟨npp, nps⟩ := np
      by_cases hjc : g.jumpState.completed && g.fallState.completed
      · simp only [playerJumpRelease, setShapes, hacc, hnp, hjc, Option.map,
          if_true, resolveRelease,
          is_landed_shape_eq s PlatformShape.Box,
          is_landed_shape_eq s' PlatformShape.Box,
          is_landed_shape_eq t PlatformShape.Box,
          is_landed_shape_eq t' PlatformShape.Box,
          is_touched_shape_eq s PlatformShape.Box,
          is_touched_shape_eq s' PlatformShape.Box,
          is_touched_shape_eq t PlatformShape.Box,
          is_touched_shape_eq t' PlatformShape.Box]
        split_ifs <;> simp_all
      · simp [playerJumpRelease, setShapes, hacc, hnp, hjc]

end JumpGame
